import Mathlib

/-!
Shallow embedding of the PDF layout / reading-order / OCR reconciliation
pipeline of the Emerging-Market-Risk repository.

The embedded code comes from:
* `src/layout_surya.py` — `run_surya`, `order_layout`, `do_order`,
  `do_order_by_page`, `parse_layout_res`, `parse_order_res`, `get_bboxes`,
  `get_box_num`;
* `src/ocr_tesseract.py` — `run_ocr`, `crop_images`, `tesseract_ocr_multi`;
* `src/ocr/pdf_parser/toolkit.py` — `scale_bbox`, `add_unique_id`;
* `src/__init__.py` — `PdfParser.parse_pdf`, `get_surya_df`, `get_ocr_df`,
  `_merge_layout_ocr`.

Modelling conventions:
* pandas DataFrames are modelled as lists of row structures; a DataFrame
  column assignment that pandas performs in place is modelled by returning
  the updated table, and call sites that alias the mutated frame consume the
  returned table;
* the external Surya ordering model and the external tesseract subprocess
  are oracles passed in as function parameters;
* images are opaque handles (`Nat`); a cropped image is the pair of the page
  handle and the crop rectangle;
* python floats appear only as the `scale = image_ppi / layout_ppi` ratio
  inside `crop_images` / `scale_bbox`; the ratio of the two integer ppi
  values is modelled exactly as a rational number;
* columns that the source merely stringifies and carries along unused
  (`image_bbox`, `polygon`, `confidence`) are not modelled;
* `pd.DataFrame.sort_values(by=['page_idx', 'position'])` sorts on two
  columns, for which pandas uses `np.lexsort`, a stable sort; it is modelled
  by a stable insertion sort on the lexicographic key;
* raised python exceptions are modelled with `Except`.
-/

namespace EMRisk

/-- Opaque handle for a full-page raster image. -/
abbrev Img := Nat

/-- Bounding box as stored in the tables: integer coordinates, min corner
`(x, y)` and max corner `(w, h)`, following the naming used by
`toolkit.scale_bbox` (`x, y, w, h = bbox`). -/
structure Bbox where
  x : Int
  y : Int
  w : Int
  h : Int
  deriving DecidableEq, Repr

/-- Result of `img.crop((x, y, w, h))`: the source page handle together with
the crop rectangle. -/
abbrev Cropped := Img × Bbox

/-- One block of a Surya layout prediction (`page.bboxes` entry in
`parse_layout_res`).  `polygon` and `confidence` are only stringified and
carried; they are not modelled. -/
structure LayoutBlockPred where
  label : String
  bbox : Bbox
  deriving DecidableEq, Repr

/-- One page of a Surya layout prediction.  `image_bbox` is only stringified
and carried; it is not modelled. -/
structure LayoutPagePred where
  bboxes : List LayoutBlockPred
  deriving DecidableEq, Repr

/-- One block of a Surya ordering prediction (`page.bboxes` entry in
`parse_order_res`). -/
structure OrderBlockPred where
  bbox : Bbox
  position : Int
  deriving DecidableEq, Repr

/-- One page of a Surya ordering prediction. -/
structure OrderPagePred where
  bboxes : List OrderBlockPred
  deriving DecidableEq, Repr

/-- Row of the DataFrame built by `parse_layout_res`. -/
structure LayoutRow where
  page_idx : Nat
  block_idx : Nat
  label : String
  bbox : Bbox
  deriving DecidableEq, Repr

/-- Row of the DataFrame built by `parse_order_res`. -/
structure OrderRow where
  page_idx : Nat
  block_idx : Nat
  bbox : Bbox
  position : Int
  deriving DecidableEq, Repr

/-- Row of the table produced by `order_layout`: a layout row with the
`position` column attached and the `unique_id` column already dropped. -/
structure PosRow where
  page_idx : Nat
  block_idx : Nat
  label : String
  bbox : Bbox
  position : Int
  deriving DecidableEq, Repr

/-- Row of the table returned by `PdfParser.get_surya_df`: the
`order_layout` output with the constant `layout_ppi` column added. -/
structure SuryaRow where
  page_idx : Nat
  block_idx : Nat
  label : String
  bbox : Bbox
  position : Int
  layout_ppi : Nat
  deriving DecidableEq, Repr

/-- Row of the `image_df` built by `crop_images`. -/
structure CropRow where
  page_idx : Nat
  block_idx : Nat
  image : Cropped
  deriving DecidableEq, Repr

/-- Row of the OCR result table returned by `run_ocr` (after the `image`
column has been dropped and the `text` column attached). -/
structure OcrRow where
  page_idx : Nat
  block_idx : Nat
  text : String
  deriving DecidableEq, Repr

/-- Row of the final merged table returned by `PdfParser.parse_pdf` after
column selection `['page_index', 'position', 'bbox', 'label', 'text',
'layout_ppi']`.  `text` is `none` for blocks with no OCR match (`NaN` after
the left join). -/
structure FinalRow where
  page_index : Nat
  position : Int
  bbox : Bbox
  label : String
  text : Option String
  layout_ppi : Nat
  deriving DecidableEq, Repr

/-- Python exceptions raised by the embedded code. -/
inductive PyErr where
  /-- `max()` applied to an empty sequence in `run_surya`. -/
  | maxEmpty
  /-- `imgs[0]` on an empty image list in `tesseract_ocr_multi`. -/
  | indexError
  /-- the tesseract subprocess raised (and its retry raised again). -/
  | subprocessError
  /-- `image_df['text'] = ocr_res` with mismatched lengths in `run_ocr`. -/
  | lengthMismatch
  deriving DecidableEq, Repr

/-- `layout_surya.parse_layout_res`: one row per (page, block), with
`page_idx` and `block_idx` assigned by `enumerate`. -/
def parseLayoutRes (preds : List LayoutPagePred) : List LayoutRow :=
  preds.enum.flatMap (fun pp =>
    pp.2.bboxes.enum.map (fun bb => LayoutRow.mk pp.1 bb.1 bb.2.label bb.2.bbox))

/-- `layout_surya.parse_order_res`: one row per (page, block), with
`page_idx` and `block_idx` assigned by `enumerate` over whatever list of
page predictions it receives. -/
def parseOrderRes (preds : List OrderPagePred) : List OrderRow :=
  preds.enum.flatMap (fun pp =>
    pp.2.bboxes.enum.map (fun bb => OrderRow.mk pp.1 bb.1 bb.2.bbox bb.2.position))

/-- `layout_surya.get_bboxes`: per-page lists of block bboxes. -/
def getBboxes (preds : List LayoutPagePred) : List (List Bbox) :=
  preds.map (fun p => p.bboxes.map (fun b => b.bbox))

/-- `layout_surya.get_box_num`: `sum([len(b) for b in bboxes])`. -/
def getBoxNum (bboxes : List (List Bbox)) : Nat :=
  (bboxes.map List.length).sum

/-- Oracle for `surya.ordering.batch_ordering`: given images and per-page
bbox lists it returns one ordering prediction per page. -/
abbrev OrderModel := List Img → List (List Bbox) → List OrderPagePred

/-- `layout_surya.do_order`: a single whole-batch call of the ordering
model. -/
def doOrder (model : OrderModel) (images : List Img) (bboxes : List (List Bbox)) :
    List OrderPagePred :=
  model images bboxes

/-- `layout_surya.do_order_by_page`: page-at-a-time ordering with
`batch_size = 1`.  A batch whose box count exceeds 255 is not scored;
instead `order_predictions[-1:]` (the most recently accumulated result, or
nothing when the accumulator is still empty) is appended. -/
def doOrderByPage (model : OrderModel) (images : List Img) (bboxes : List (List Bbox)) :
    List OrderPagePred :=
  let imageBatches := images.map (fun i => [i])
  let bboxesBatches := bboxes.map (fun b => [b])
  (imageBatches.zip bboxesBatches).foldl
    (fun acc batch =>
      if getBoxNum batch.2 > 255 then
        acc ++ acc.drop (acc.length - 1)
      else
        acc ++ doOrder model batch.1 batch.2)
    []

/-- Underscore-joined integer list, as in `'_'.join([str(i) for i in x])`. -/
def intJoin (l : List Int) : String :=
  String.intercalate "_" (l.map toString)

/-- `toolkit.add_unique_id`: the key
`str(page_idx) + '_' + '_'.join(str(i) for i in bbox)` computed per row
(the `eval` / `int` round trip of the stringified bbox is the identity on
the integer bboxes modelled here). -/
def uniqueId (page_idx : Nat) (b : Bbox) : String :=
  toString page_idx ++ "_" ++ intJoin [b.x, b.y, b.w, b.h]

/-- Lookup in an association list built like `dict(zip(keys, values))`:
later bindings of a duplicated key overwrite earlier ones. -/
def dictGet {β : Type} : List (String × β) → String → Option β
  | [], _ => none
  | p :: rest, k =>
    match dictGet rest k with
    | some v => some v
    | none => if p.1 == k then some p.2 else none

/-- Sort key of `order_layout`: ascending lexicographic order on
`(page_idx, position)`. -/
def posRowLe (a b : PosRow) : Prop :=
  a.page_idx < b.page_idx ∨ (a.page_idx = b.page_idx ∧ a.position ≤ b.position)

instance : DecidableRel posRowLe := fun a b => by
  unfold posRowLe; infer_instance

instance : IsTotal PosRow posRowLe :=
  ⟨fun a b => by unfold posRowLe; omega⟩

instance : IsTrans PosRow posRowLe :=
  ⟨fun a b c hab hbc => by unfold posRowLe at hab hbc ⊢; omega⟩

/-- `position_map = dict(zip(order_df['unique_id'], order_df['position']))`
from `layout_surya.order_layout`. -/
def positionMap (orderRows : List OrderRow) : List (String × Int) :=
  orderRows.map (fun r => (uniqueId r.page_idx r.bbox, r.position))

/-- The map/fill/coerce part of `layout_surya.order_layout`:
`layout_df['position'] = layout_df['unique_id'].map(position_map)`,
`fillna(-1)`, `astype(int)`. -/
def attachPositions (layoutRows : List LayoutRow) (orderRows : List OrderRow) :
    List PosRow :=
  layoutRows.map (fun r =>
    PosRow.mk r.page_idx r.block_idx r.label r.bbox
      ((dictGet (positionMap orderRows) (uniqueId r.page_idx r.bbox)).getD (-1)))

/-- `layout_surya.order_layout`: attach positions by `unique_id`, then
`sort_values(by=['page_idx', 'position'])` (stable lexicographic sort). -/
def orderLayout (layoutRows : List LayoutRow) (orderRows : List OrderRow) :
    List PosRow :=
  List.insertionSort posRowLe (attachPositions layoutRows orderRows)

/-- `layout_surya.run_surya` (from `parse_layout_res` on): build the layout
table, choose the ordering strategy from the largest page's block count
(whole batch if `max(page_box_num) < 255`, otherwise page at a time), and
join through `order_layout`.  `max()` of an empty sequence raises. -/
def runSurya (model : OrderModel) (images : List Img)
    (layoutPreds : List LayoutPagePred) : Except PyErr (List PosRow) :=
  let layoutRows := parseLayoutRes layoutPreds
  let bboxes := getBboxes layoutPreds
  let pageBoxNum := bboxes.map List.length
  match pageBoxNum.max? with
  | none => .error .maxEmpty
  | some m =>
    let preds :=
      if m < 255 then doOrder model images bboxes
      else doOrderByPage model images bboxes
    .ok (orderLayout layoutRows (parseOrderRes preds))

/-- `toolkit.scale_bbox`: floor on the buffered min corner, ceil on the
buffered max corner. -/
def scaleBbox (b : Bbox) (scale : ℚ) (buffer : Int) : Bbox :=
  Bbox.mk
    ⌊((b.x : ℚ) - (buffer : ℚ)) * scale⌋
    ⌊((b.y : ℚ) - (buffer : ℚ)) * scale⌋
    ⌈((b.w : ℚ) + (buffer : ℚ)) * scale⌉
    ⌈((b.h : ℚ) + (buffer : ℚ)) * scale⌉

/-- `img.crop(bbox)` abstracted: pair the page handle with the rectangle. -/
def cropImg (img : Img) (b : Bbox) : Cropped := (img, b)

/-- `ocr_tesseract.crop_images`.  The bbox column of the layout table is
overwritten in place with `scale_bbox(bbox, image_ppi / layout_ppi, buffer)`
(first component of the result, since callers alias the mutated frame); a
page whose row count is `>= 255` contributes no crops. -/
def cropImages (images : List Img) (layoutTable : List SuryaRow)
    (imagePpi layoutPpi : Nat) (buffer : Int) :
    List SuryaRow × List CropRow :=
  let scale : ℚ := (imagePpi : ℚ) / (layoutPpi : ℚ)
  let scaled := layoutTable.map (fun r => { r with bbox := scaleBbox r.bbox scale buffer })
  let crops := images.enum.flatMap (fun pi =>
    let pageRows := scaled.filter (fun r => r.page_idx == pi.1)
    if pageRows.length ≥ 255 then []
    else pageRows.map (fun r => CropRow.mk r.page_idx r.block_idx (cropImg pi.2 r.bbox)))
  (scaled, crops)

/-- Python `str.split` with the one-character separator `'\f'`, by
structural recursion on the character list: every separator occurrence
starts a new segment, so `n` separators yield `n + 1` segments and the
empty string yields `[""]`, exactly as in python. -/
def splitFF : List Char → List (List Char)
  | [] => [[]]
  | c :: rest =>
    match splitFF rest with
    | [] => [[]]
    | g :: gs => if c = '\x0c' then [] :: g :: gs else (c :: g) :: gs

/-- `output_text.split('\f')` from `tesseract_ocr_multi`. -/
def pySplitFF (s : String) : List String :=
  (splitFF s.data).map (fun cs => String.mk cs)

/-- Oracle for the tesseract subprocess over the multi-frame temp file:
`Except.error` models `subprocess.run` raising, `some out` is the captured
stdout, `none` models the `output_text == None` check firing. -/
abbrev OcrEngine := List Cropped → Except Unit (Option String)

/-- `ocr_tesseract.tesseract_ocr_multi` with the temp-file state threaded
explicitly: the `Bool` is "the temp file exists", `fs0` its state on entry.
`imgs[0].save(...)` raises on an empty list before any file is written.
After a successful save the file exists; a subprocess exception (the
`except` branch reruns the identical command, so a failing oracle fails
both times and the second exception propagates) and the
`output_text == None` early return both leave the file in place;
`os.remove(temp_path)` runs only on the remaining path.  The returned
segments are `output_text.split('\f')`, or one empty string per image on
the `None` path. -/
def tesseractOcrMulti (engine : OcrEngine) (imgs : List Cropped) (fs0 : Bool) :
    Except PyErr (List String) × Bool :=
  match imgs with
  | [] => (.error .indexError, fs0)
  | _ :: _ =>
    match engine imgs with
    | .error _ => (.error .subprocessError, true)
    | .ok none => (.ok (imgs.map (fun _ => "")), true)
    | .ok (some out) => (.ok (pySplitFF out), false)

/-- `ocr_tesseract.run_ocr`: crop, run tesseract on the cropped images, and
attach the OCR results as the `text` column; `image_df['text'] = ocr_res`
raises when the lengths differ.  The first component of the `ok` payload is
the layout table as mutated by `crop_images` (the caller's aliased frame). -/
def runOcr (engine : OcrEngine) (images : List Img) (layoutTable : List SuryaRow)
    (imagePpi layoutPpi : Nat) (buffer : Int) (fs0 : Bool) :
    Except PyErr (List SuryaRow × List OcrRow) × Bool :=
  let cropped := cropImages images layoutTable imagePpi layoutPpi buffer
  let imgs := cropped.2.map (fun r => r.image)
  match tesseractOcrMulti engine imgs fs0 with
  | (.error e, fs) => (.error e, fs)
  | (.ok ocrRes, fs) =>
    if ocrRes.length = cropped.2.length then
      (.ok (cropped.1,
            (cropped.2.zip ocrRes).map (fun p => OcrRow.mk p.1.page_idx p.1.block_idx p.2)),
       fs)
    else
      (.error .lengthMismatch, fs)

/-- `PdfParser.get_ocr_df` buffer choice: `0` when the two resolutions
coincide, `2` otherwise. -/
def bufferSize (suryaPpi ocrPpi : Nat) : Int :=
  if suryaPpi = ocrPpi then 0 else 2

/-- `PdfParser.get_surya_df`: `run_surya` plus the constant `layout_ppi`
column. -/
def getSuryaDf (model : OrderModel) (images : List Img)
    (layoutPreds : List LayoutPagePred) (ppi : Nat) : Except PyErr (List SuryaRow) :=
  match runSurya model images layoutPreds with
  | .error e => .error e
  | .ok rows =>
    .ok (rows.map (fun r => SuryaRow.mk r.page_idx r.block_idx r.label r.bbox r.position ppi))

/-- Join key of `PdfParser._merge_layout_ocr`:
`str(page_idx) + '_' + str(block_idx)`. -/
def blockKey (page_idx block_idx : Nat) : String :=
  toString page_idx ++ "_" ++ toString block_idx

/-- `PdfParser._merge_layout_ocr`: left join of the layout table with the
OCR text by `(page_idx, block_idx)`; unmatched rows keep `text = none`
(`NaN`). -/
def mergeLayoutOcr (layoutDf : List SuryaRow) (ocrDf : List OcrRow) :
    List (SuryaRow × Option String) :=
  let textMap := ocrDf.map (fun r => (blockKey r.page_idx r.block_idx, r.text))
  layoutDf.map (fun r => (r, dictGet textMap (blockKey r.page_idx r.block_idx)))

/-- Final column selection of `PdfParser.parse_pdf`:
`['page_index', 'position', 'bbox', 'label', 'text', 'layout_ppi']`. -/
def selectFinal (merged : List (SuryaRow × Option String)) : List FinalRow :=
  merged.map (fun p =>
    FinalRow.mk p.1.page_idx p.1.position p.1.bbox p.1.label p.2 p.1.layout_ppi)

/-- `PdfParser.parse_pdf` assembled from `get_surya_df`, `get_ocr_df` and
`_merge_layout_ocr`.  The source's `parse_pdf` passes one `ppi` to both
stages; this composition keeps the two resolutions independent exactly as
`get_surya_df(ppi)` / `get_ocr_df(surya_ppi, ocr_ppi)` allow.  The merge
consumes the layout table returned by `runOcr`, because in the source
`crop_images` mutates the aliased `surya_df` in place before
`_merge_layout_ocr(surya_df, ocr_df)` runs. -/
def parsePdf (model : OrderModel) (engine : OcrEngine)
    (layoutImages ocrImages : List Img) (layoutPreds : List LayoutPagePred)
    (layoutPpi ocrPpi : Nat) (fs0 : Bool) :
    Except PyErr (List FinalRow) × Bool :=
  match getSuryaDf model layoutImages layoutPreds layoutPpi with
  | .error e => (.error e, fs0)
  | .ok suryaDf =>
    match runOcr engine ocrImages suryaDf ocrPpi layoutPpi (bufferSize layoutPpi ocrPpi) fs0 with
    | (.error e, fs) => (.error e, fs)
    | (.ok r, fs) => (.ok (selectFinal (mergeLayoutOcr r.1 r.2)), fs)

/-! ### Concrete scenario builders -/

/-- Test page with `n` detector blocks, block `j` placed at bbox
`(p, j, 0, 0)`: bboxes are distinct within and across pages. -/
def mkPage (p n : Nat) : LayoutPagePred :=
  LayoutPagePred.mk
    ((List.range n).map (fun (j : Nat) => LayoutBlockPred.mk "Text" (Bbox.mk p j 0 0)))

/-- Deterministic ordering-model oracle: scores each page it is given by
listing its blocks in input order (block `j` receives position `j`). -/
def rankModel : OrderModel :=
  fun _ bbs => bbs.map (fun pageB =>
    OrderPagePred.mk (pageB.enum.map (fun ib => OrderBlockPred.mk ib.2 (Int.ofNat ib.1))))

/-- The ordering prediction `rankModel` produces for `mkPage p n`. -/
def rankPage (p n : Nat) : OrderPagePred :=
  OrderPagePred.mk
    ((List.range n).map (fun (j : Nat) => OrderBlockPred.mk (Bbox.mk p j 0 0) (Int.ofNat j)))

/-- Position column of the rows of page `p`, in table order. -/
def pagePositions (rows : List PosRow) (p : Nat) : List Int :=
  (rows.filter (fun r => r.page_idx == p)).map (fun r => r.position)

/-- Projection dropping the `position` column of a final-table row. -/
def stripPos (r : PosRow) : Nat × Nat × String × Bbox :=
  (r.page_idx, r.block_idx, r.label, r.bbox)

/-- The same projection on a detector row. -/
def stripLayout (r : LayoutRow) : Nat × Nat × String × Bbox :=
  (r.page_idx, r.block_idx, r.label, r.bbox)

/-- OCR-engine oracle that always succeeds with output `s`. -/
def engSome (s : String) : OcrEngine := fun _ => .ok (some s)

/-- OCR-engine oracle whose captured stdout is `None`. -/
def engNone : OcrEngine := fun _ => .ok none

/-- OCR-engine oracle whose subprocess invocation raises. -/
def engFail : OcrEngine := fun _ => .error ()

/-- Boundary scenario for the capacity rule: page 0 has one block, page 1
has exactly 255 blocks. -/
def exC1layout : List LayoutPagePred := [mkPage 0 1, mkPage 1 255]

def exC1preds : List OrderPagePred :=
  doOrderByPage rankModel [0, 1] (getBboxes exC1layout)

def exC1final : List PosRow :=
  orderLayout (parseLayoutRes exC1layout) (parseOrderRes exC1preds)

/-- The spec's concrete degradation scenario: pages with block counts
`[10, 20, 300]`. -/
def exC1Alayout : List LayoutPagePred := [mkPage 0 10, mkPage 1 20, mkPage 2 300]

def exC1Apreds : List OrderPagePred :=
  doOrderByPage rankModel [0, 1, 2] (getBboxes exC1Alayout)

def exC1Afinal : List PosRow :=
  orderLayout (parseLayoutRes exC1Alayout) (parseOrderRes exC1Apreds)

/-- First-page-overflow scenario: page 0 has 256 blocks, page 1 has one. -/
def exC2layout : List LayoutPagePred := [mkPage 0 256, mkPage 1 1]

def exC2preds : List OrderPagePred :=
  doOrderByPage rankModel [0, 1] (getBboxes exC2layout)

def exC2final : List PosRow :=
  orderLayout (parseLayoutRes exC2layout) (parseOrderRes exC2preds)

/-- One-page one-block document used for the pipeline bbox trail. -/
def exC3layout : List LayoutPagePred :=
  [LayoutPagePred.mk [LayoutBlockPred.mk "Text" (Bbox.mk 10 10 20 20)]]

/-- The full pipeline on the one-block document, at the given pair of
resolutions. -/
def exC3run (lppi oppi : Nat) : Except PyErr (List FinalRow) × Bool :=
  parsePdf rankModel (engSome "hello") [0] [0] exC3layout lppi oppi false

/-- Five blocks on one page whose attached positions come out as
`[2, -1, 0, -1, 1]` in block order. -/
def exC6L : List LayoutRow :=
  [LayoutRow.mk 0 0 "Text" (Bbox.mk 0 0 0 0),
   LayoutRow.mk 0 1 "Text" (Bbox.mk 0 1 0 0),
   LayoutRow.mk 0 2 "Text" (Bbox.mk 0 2 0 0),
   LayoutRow.mk 0 3 "Text" (Bbox.mk 0 3 0 0),
   LayoutRow.mk 0 4 "Text" (Bbox.mk 0 4 0 0)]

def exC6O : List OrderRow :=
  [OrderRow.mk 0 0 (Bbox.mk 0 0 0 0) 2,
   OrderRow.mk 0 2 (Bbox.mk 0 2 0 0) 0,
   OrderRow.mk 0 4 (Bbox.mk 0 4 0 0) 1]

/-- Three blocks on one page, with order predictions for blocks 0 and 2
only. -/
def exC7L : List LayoutRow :=
  [LayoutRow.mk 0 0 "Text" (Bbox.mk 0 0 0 0),
   LayoutRow.mk 0 1 "Text" (Bbox.mk 0 1 0 0),
   LayoutRow.mk 0 2 "Text" (Bbox.mk 0 2 0 0)]

def exC7O : List OrderRow :=
  [OrderRow.mk 0 0 (Bbox.mk 0 0 0 0) 1,
   OrderRow.mk 0 2 (Bbox.mk 0 2 0 0) 0]

/-- One-row layout table used for the OCR-adapter scenarios. -/
def exC4table : List SuryaRow := [SuryaRow.mk 0 0 "Text" (Bbox.mk 0 0 2 2) 0 72]

/-- A cropped image handle for the temp-file scenarios. -/
def exCrop : Cropped := (0, Bbox.mk 0 0 1 1)

/-! ### General lemmas about the embedded operations -/

theorem dictGet_eq_none {β : Type} (m : List (String × β)) (k : String)
    (h : ∀ p ∈ m, (p.1 == k) = false) : dictGet m k = none := by
  induction m with
  | nil => rfl
  | cons p rest ih =>
    have hrest := ih (fun q hq => h q (List.mem_cons_of_mem _ hq))
    simp [dictGet, hrest, h p (List.mem_cons_self _ _)]

theorem dictGet_mem {β : Type} {m : List (String × β)} {k : String} {v : β}
    (h : dictGet m k = some v) : (k, v) ∈ m := by
  induction m with
  | nil => simp [dictGet] at h
  | cons p rest ih =>
    simp only [dictGet] at h
    cases hrest : dictGet rest k with
    | some w =>
      simp only [hrest] at h
      injection h with hw
      subst hw
      exact List.mem_cons_of_mem _ (ih hrest)
    | none =>
      simp only [hrest] at h
      by_cases hpk : (p.1 == k) = true
      · simp only [hpk, if_true] at h
        injection h with hv
        obtain ⟨p1, p2⟩ := p
        have hk : p1 = k := eq_of_beq hpk
        subst hk
        subst hv
        exact List.mem_cons_self _ _
      · simp only [Bool.not_eq_true] at hpk
        simp [hpk] at h

theorem mem_attachPositions {L : List LayoutRow} {O : List OrderRow} {r : PosRow}
    (h : r ∈ attachPositions L O) :
    ∃ l ∈ L, r = PosRow.mk l.page_idx l.block_idx l.label l.bbox
      ((dictGet (positionMap O) (uniqueId l.page_idx l.bbox)).getD (-1)) := by
  rcases List.mem_map.mp h with ⟨l, hl, he⟩
  exact ⟨l, hl, he.symm⟩

theorem mem_of_mem_orderLayout {L : List LayoutRow} {O : List OrderRow} {r : PosRow}
    (h : r ∈ orderLayout L O) : r ∈ attachPositions L O :=
  (List.mem_insertionSort _).mp h

/-- A final-table row whose unique id is absent from the position map
carries the sentinel `-1`. -/
theorem position_eq_neg_one_of_not_found {L : List LayoutRow} {O : List OrderRow}
    {r : PosRow} (hr : r ∈ orderLayout L O)
    (h : dictGet (positionMap O) (uniqueId r.page_idx r.bbox) = none) :
    r.position = -1 := by
  rcases mem_attachPositions (mem_of_mem_orderLayout hr) with ⟨l, _, he⟩
  subst he
  have h' : dictGet (positionMap O) (uniqueId l.page_idx l.bbox) = none := h
  show (dictGet (positionMap O) (uniqueId l.page_idx l.bbox)).getD (-1) = -1
  rw [h']
  rfl

/-- The number of rows the final table holds for page `p` equals the number
of detector rows of page `p`. -/
theorem length_pagePositions_orderLayout (L : List LayoutRow) (O : List OrderRow) (p : Nat) :
    (pagePositions (orderLayout L O) p).length = L.countP (fun r => r.page_idx == p) := by
  unfold pagePositions orderLayout
  rw [List.length_map, ← List.countP_eq_length_filter,
    (List.perm_insertionSort posRowLe _).countP_eq]
  unfold attachPositions
  rw [List.countP_map]
  rfl

/-- Two strings differing within their first three characters are distinct. -/
theorem ne_of_third_char {s t : String} {a1 a2 a3 b1 b2 b3 : Char} {l1 l2 : List Char}
    (hs : s.data = a1 :: a2 :: a3 :: l1) (ht : t.data = b1 :: b2 :: b3 :: l2)
    (hne : ¬(a1 = b1 ∧ a2 = b2 ∧ a3 = b3)) : (s == t) = false := by
  rw [beq_eq_false_iff_ne]
  intro he
  apply hne
  have hd : a1 :: a2 :: a3 :: l1 = b1 :: b2 :: b3 :: l2 := by rw [← hs, ← ht, he]
  injection hd with h1 hd2
  injection hd2 with h2 hd3
  injection hd3 with h3 _
  exact ⟨h1, h2, h3⟩

theorem uid_data_00 (j : Int) :
    (uniqueId 0 (Bbox.mk 0 j 0 0)).data
      = '0' :: '_' :: '0' :: '_' :: ((toString j).data ++ ('_' :: '0' :: '_' :: '0' :: [])) := by
  have hn : (toString (0 : Nat)).data = ['0'] := rfl
  have hx : (toString (0 : Int)).data = ['0'] := rfl
  simp [uniqueId, intJoin, String.intercalate, String.intercalate.go, String.data_append, hn, hx]

theorem uid_data_01 (j : Int) :
    (uniqueId 0 (Bbox.mk 1 j 0 0)).data
      = '0' :: '_' :: '1' :: '_' :: ((toString j).data ++ ('_' :: '0' :: '_' :: '0' :: [])) := by
  have hn : (toString (0 : Nat)).data = ['0'] := rfl
  have hx : (toString (1 : Int)).data = ['1'] := rfl
  have h0 : (toString (0 : Int)).data = ['0'] := rfl
  simp [uniqueId, intJoin, String.intercalate, String.intercalate.go, String.data_append,
    hn, hx, h0]

theorem uid_data_11 (j : Int) :
    (uniqueId 1 (Bbox.mk 1 j 0 0)).data
      = '1' :: '_' :: '1' :: '_' :: ((toString j).data ++ ('_' :: '0' :: '_' :: '0' :: [])) := by
  have hn : (toString (1 : Nat)).data = ['1'] := rfl
  have hx : (toString (1 : Int)).data = ['1'] := rfl
  have h0 : (toString (0 : Int)).data = ['0'] := rfl
  simp [uniqueId, intJoin, String.intercalate, String.intercalate.go, String.data_append,
    hn, hx, h0]

theorem uid_data_21 (j : Int) :
    (uniqueId 2 (Bbox.mk 1 j 0 0)).data
      = '2' :: '_' :: '1' :: '_' :: ((toString j).data ++ ('_' :: '0' :: '_' :: '0' :: [])) := by
  have hn : (toString (2 : Nat)).data = ['2'] := rfl
  have hx : (toString (1 : Int)).data = ['1'] := rfl
  have h0 : (toString (0 : Int)).data = ['0'] := rfl
  simp [uniqueId, intJoin, String.intercalate, String.intercalate.go, String.data_append,
    hn, hx, h0]

theorem uid_data_22 (j : Int) :
    (uniqueId 2 (Bbox.mk 2 j 0 0)).data
      = '2' :: '_' :: '2' :: '_' :: ((toString j).data ++ ('_' :: '0' :: '_' :: '0' :: [])) := by
  have hn : (toString (2 : Nat)).data = ['2'] := rfl
  have hx : (toString (2 : Int)).data = ['2'] := rfl
  have h0 : (toString (0 : Int)).data = ['0'] := rfl
  simp [uniqueId, intJoin, String.intercalate, String.intercalate.go, String.data_append,
    hn, hx, h0]

theorem ppi_div_self (ppi : Nat) (h : 0 < ppi) : (ppi : ℚ) / (ppi : ℚ) = 1 :=
  div_self (by exact_mod_cast h.ne')

theorem scaleBbox_one_zero (b : Bbox) : scaleBbox b 1 0 = b := by
  cases b
  simp [scaleBbox]

/-! ### C1 : degraded-path fallback -/

set_option maxRecDepth 40000 in
theorem exC1Apreds_eq : exC1Apreds = [rankPage 0 10, rankPage 1 20, rankPage 1 20] := by
  decide

theorem exC1A_layout_mem {r : LayoutRow} (hr : r ∈ parseLayoutRes exC1Alayout)
    (h2 : r.page_idx = 2) : ∃ j : Nat, j < 300 ∧ r.bbox = Bbox.mk 2 (j : Int) 0 0 := by
  simp only [parseLayoutRes] at hr
  rcases List.mem_flatMap.mp hr with ⟨pp, hpp, hin⟩
  have henum : exC1Alayout.enum = [(0, mkPage 0 10), (1, mkPage 1 20), (2, mkPage 2 300)] := rfl
  rw [henum] at hpp
  rcases List.mem_map.mp hin with ⟨bb, hbb, he⟩
  subst he
  obtain ⟨bi, blk⟩ := bb
  simp only [List.mem_cons, List.not_mem_nil, or_false] at hpp
  rcases hpp with h | h | h
  · subst h
    have h0 : (0 : Nat) = 2 := h2
    exact absurd h0 (by decide)
  · subst h
    have h0 : (1 : Nat) = 2 := h2
    exact absurd h0 (by decide)
  · subst h
    have hb := List.mem_enum hbb
    have hlen : (mkPage 2 300).bboxes.length = 300 := by
      simp only [mkPage, List.length_map, List.length_range]
    have hblk : blk = LayoutBlockPred.mk "Text" (Bbox.mk 2 (bi : Int) 0 0) := by
      rw [hb.2]
      simp only [mkPage, List.getElem_map, List.getElem_range]
      rfl
    refine ⟨bi, by rw [← hlen]; exact hb.1, ?_⟩
    show blk.bbox = Bbox.mk 2 (bi : Int) 0 0
    rw [hblk]

theorem exC1Afinal_page2_bbox {r : PosRow} (hr : r ∈ exC1Afinal) (h2 : r.page_idx = 2) :
    ∃ j : Nat, j < 300 ∧ r.bbox = Bbox.mk 2 (j : Int) 0 0 := by
  have hr' : r ∈ orderLayout (parseLayoutRes exC1Alayout) (parseOrderRes exC1Apreds) := hr
  rcases mem_attachPositions (mem_of_mem_orderLayout hr') with ⟨l, hl, he⟩
  subst he
  exact exC1A_layout_mem hl h2

theorem exC1A_posmap_none (j : Int) :
    dictGet (positionMap (parseOrderRes exC1Apreds)) (uniqueId 2 (Bbox.mk 2 j 0 0)) = none := by
  apply dictGet_eq_none
  intro p hp
  rw [exC1Apreds_eq] at hp
  simp only [positionMap] at hp
  rcases List.mem_map.mp hp with ⟨o, ho, hpe⟩
  subst hpe
  simp only [parseOrderRes] at ho
  rcases List.mem_flatMap.mp ho with ⟨pp, hpp, hin⟩
  have henum : ([rankPage 0 10, rankPage 1 20, rankPage 1 20].enum)
      = [(0, rankPage 0 10), (1, rankPage 1 20), (2, rankPage 1 20)] := rfl
  rw [henum] at hpp
  rcases List.mem_map.mp hin with ⟨bb, hbb, hoe⟩
  subst hoe
  obtain ⟨bi, blk⟩ := bb
  simp only [List.mem_cons, List.not_mem_nil, or_false] at hpp
  rcases hpp with h | h | h
  · subst h
    have hb := List.mem_enum hbb
    have hblk : blk = OrderBlockPred.mk (Bbox.mk 0 (bi : Int) 0 0) (bi : Int) := by
      rw [hb.2]
      simp only [rankPage, List.getElem_map, List.getElem_range]
      rfl
    show (uniqueId 0 blk.bbox == uniqueId 2 (Bbox.mk 2 j 0 0)) = false
    rw [hblk]
    exact ne_of_third_char (uid_data_00 _) (uid_data_22 _) (by decide)
  · subst h
    have hb := List.mem_enum hbb
    have hblk : blk = OrderBlockPred.mk (Bbox.mk 1 (bi : Int) 0 0) (bi : Int) := by
      rw [hb.2]
      simp only [rankPage, List.getElem_map, List.getElem_range]
      rfl
    show (uniqueId 1 blk.bbox == uniqueId 2 (Bbox.mk 2 j 0 0)) = false
    rw [hblk]
    exact ne_of_third_char (uid_data_11 _) (uid_data_22 _) (by decide)
  · subst h
    have hb := List.mem_enum hbb
    have hblk : blk = OrderBlockPred.mk (Bbox.mk 1 (bi : Int) 0 0) (bi : Int) := by
      rw [hb.2]
      simp only [rankPage, List.getElem_map, List.getElem_range]
      rfl
    show (uniqueId 2 blk.bbox == uniqueId 2 (Bbox.mk 2 j 0 0)) = false
    rw [hblk]
    exact ne_of_third_char (uid_data_21 _) (uid_data_22 _) (by decide)

set_option maxRecDepth 40000 in
/-- C1, counterexample: with pages of block counts `[1, 255]` the second
page's block count meets the claimed threshold `255`, yet the orchestrator
scores it with the model (its emitted entry is the model's own ranking of
all 255 blocks, not a reuse), and the final layout table's positions for
that page are not the most recently obtained order result (page 1's
single-position result): the code skips a page only when its count is
strictly greater than 255. -/
theorem C1_counterexample :
    (getBboxes exC1layout).map List.length = [1, 255] ∧
    exC1preds = [rankPage 0 1, rankPage 1 255] ∧
    pagePositions exC1final 1 ≠ (rankPage 0 1).bboxes.map (fun b => b.position) := by
  refine ⟨by decide, by decide, ?_⟩
  have h1 : (pagePositions exC1final 1).length = 255 := by
    show (pagePositions (orderLayout (parseLayoutRes exC1layout) (parseOrderRes exC1preds))
      1).length = 255
    rw [length_pagePositions_orderLayout]
    decide
  intro h
  rw [h] at h1
  exact absurd h1 (by decide)

set_option maxRecDepth 40000 in
/-- C1, amended: in the page-at-a-time strategy a page is skipped only when
its block count strictly exceeds 255; for a skipped page preceded by a
contributing page, the emitted order entry equals the most recently
obtained order result (page 3's entry is page 2's entry, with page 2's 20
positions), but in the final layout table page 3 keeps its own 300 rows and
every one of them carries the sentinel `-1`, because the reused entry's
bbox-keyed unique ids match none of page 3's blocks. -/
theorem C1_degradation_amended :
    (getBboxes exC1Alayout).map List.length = [10, 20, 300] ∧
    exC1Apreds.get? 2 = exC1Apreds.get? 1 ∧
    (exC1Apreds.get? 2).map (fun e => e.bboxes.length) = some 20 ∧
    (pagePositions exC1Afinal 2).length = 300 ∧
    ∀ r ∈ exC1Afinal, r.page_idx = 2 → r.position = -1 := by
  refine ⟨by decide, ?_, ?_, ?_, ?_⟩
  · rw [exC1Apreds_eq]
    rfl
  · rw [exC1Apreds_eq]
    decide
  · show (pagePositions (orderLayout (parseLayoutRes exC1Alayout) (parseOrderRes exC1Apreds))
      2).length = 300
    rw [length_pagePositions_orderLayout]
    decide
  · intro r hr h2
    obtain ⟨j, hj, hbbox⟩ := exC1Afinal_page2_bbox hr h2
    have hnone : dictGet (positionMap (parseOrderRes exC1Apreds))
        (uniqueId r.page_idx r.bbox) = none := by
      rw [h2, hbbox]
      exact exC1A_posmap_none _
    have hr' : r ∈ orderLayout (parseLayoutRes exC1Alayout) (parseOrderRes exC1Apreds) := hr
    exact position_eq_neg_one_of_not_found hr' hnone

/-! ### C2 : first-page overflow -/

set_option maxRecDepth 40000 in
theorem exC2preds_eq : exC2preds = [rankPage 1 1] := by
  decide

theorem exC2_layout_mem {r : LayoutRow} (hr : r ∈ parseLayoutRes exC2layout) :
    (∃ j : Nat, j < 256 ∧ r.page_idx = 0 ∧ r.bbox = Bbox.mk 0 (j : Int) 0 0) ∨
    (r.page_idx = 1 ∧ r.bbox = Bbox.mk 1 0 0 0) := by
  simp only [parseLayoutRes] at hr
  rcases List.mem_flatMap.mp hr with ⟨pp, hpp, hin⟩
  have henum : exC2layout.enum = [(0, mkPage 0 256), (1, mkPage 1 1)] := rfl
  rw [henum] at hpp
  rcases List.mem_map.mp hin with ⟨bb, hbb, he⟩
  subst he
  obtain ⟨bi, blk⟩ := bb
  simp only [List.mem_cons, List.not_mem_nil, or_false] at hpp
  rcases hpp with h | h
  · subst h
    left
    have hb := List.mem_enum hbb
    have hlen : (mkPage 0 256).bboxes.length = 256 := by
      simp only [mkPage, List.length_map, List.length_range]
    have hblk : blk = LayoutBlockPred.mk "Text" (Bbox.mk 0 (bi : Int) 0 0) := by
      rw [hb.2]
      simp only [mkPage, List.getElem_map, List.getElem_range]
      rfl
    refine ⟨bi, by rw [← hlen]; exact hb.1, rfl, ?_⟩
    show blk.bbox = Bbox.mk 0 (bi : Int) 0 0
    rw [hblk]
  · subst h
    right
    have hb := List.mem_enum hbb
    have hlen : (mkPage 1 1).bboxes.length = 1 := by
      simp only [mkPage, List.length_map, List.length_range]
    have hbi : bi = 0 := by
      have := hb.1
      rw [hlen] at this
      omega
    subst hbi
    have hblk : blk = LayoutBlockPred.mk "Text" (Bbox.mk 1 0 0 0) := by
      rw [hb.2]
      simp only [mkPage, List.getElem_map, List.getElem_range]
      rfl
    refine ⟨rfl, ?_⟩
    show blk.bbox = Bbox.mk 1 0 0 0
    rw [hblk]

set_option maxRecDepth 40000 in
/-- C2 (code divergence at the failing input): with block counts
`[256, 1]` the first page overflows, `order_predictions[-1:]` on the empty
accumulator contributes nothing, so the orchestrator emits a single entry
(the model's scoring of page 2) instead of an all-`-1` entry for page 1
followed by page 2's entry; `parse_order_res` then labels that single
entry `page_idx = 0`, associating page 2's result with page 1's index, and
in the final layout table every block of both pages carries `-1` (page 2's
own ranked position is lost). -/
theorem C2_first_page_overflow_bug :
    (getBboxes exC2layout).map List.length = [256, 1] ∧
    exC2preds = [rankPage 1 1] ∧
    (parseOrderRes exC2preds).map (fun r => (r.page_idx, r.bbox.x)) = [(0, 1)] ∧
    (pagePositions exC2final 0).length = 256 ∧
    (pagePositions exC2final 1).length = 1 ∧
    ∀ r ∈ exC2final, r.position = -1 := by
  refine ⟨by decide, exC2preds_eq, ?_, ?_, ?_, ?_⟩
  · rw [exC2preds_eq]
    decide
  · show (pagePositions (orderLayout (parseLayoutRes exC2layout) (parseOrderRes exC2preds))
      0).length = 256
    rw [length_pagePositions_orderLayout]
    decide
  · show (pagePositions (orderLayout (parseLayoutRes exC2layout) (parseOrderRes exC2preds))
      1).length = 1
    rw [length_pagePositions_orderLayout]
    decide
  · intro r hr
    have hr' : r ∈ orderLayout (parseLayoutRes exC2layout) (parseOrderRes exC2preds) := hr
    rcases mem_attachPositions (mem_of_mem_orderLayout hr') with ⟨l, hl, he⟩
    subst he
    show (dictGet (positionMap (parseOrderRes exC2preds)) (uniqueId l.page_idx l.bbox)).getD
      (-1) = -1
    have hnone : dictGet (positionMap (parseOrderRes exC2preds))
        (uniqueId l.page_idx l.bbox) = none := by
      apply dictGet_eq_none
      intro p hp
      have hpm : positionMap (parseOrderRes exC2preds)
          = [(uniqueId 0 (Bbox.mk 1 0 0 0), 0)] := by
        rw [exC2preds_eq]
        rfl
      rw [hpm] at hp
      simp only [List.mem_cons, List.not_mem_nil, or_false] at hp
      subst hp
      rcases exC2_layout_mem hl with ⟨j, hj, hp0, hb⟩ | ⟨hp1, hb⟩
      · rw [hp0, hb]
        exact ne_of_third_char (uid_data_01 _) (uid_data_00 _) (by decide)
      · rw [hp1, hb]
        exact ne_of_third_char (uid_data_01 _) (uid_data_11 _) (by decide)
    rw [hnone]
    rfl

/-! ### C6 : sort order -/

/-- C6: the table built by `order_layout` is sorted ascending by
`(page_idx, position)` (so `-1` rows precede ranked rows within a page),
and on a page whose attached positions are `[2, -1, 0, -1, 1]` in block
order the output lists the two `-1` rows first, in their original
block-index order, followed by positions 0, 1, 2. -/
theorem C6_sort_order :
    (∀ (L : List LayoutRow) (O : List OrderRow), List.Sorted posRowLe (orderLayout L O)) ∧
    (orderLayout exC6L exC6O).map (fun r => (r.block_idx, r.position)) =
      [(1, -1), (3, -1), (2, 0), (4, 1), (0, 2)] := by
  constructor
  · intro L O
    exact List.sorted_insertionSort posRowLe _
  · decide

/-! ### C7 : order completeness -/

/-- C7: the table built by `order_layout` holds exactly one row per
detector block (a permutation of the detector rows once the attached
`position` column is dropped), and every row's position is either the
predicted rank of the order row with the matching unique id or the
sentinel `-1`. -/
theorem C7_order_completeness :
    ∀ (L : List LayoutRow) (O : List OrderRow),
      ((orderLayout L O).map stripPos).Perm (L.map stripLayout) ∧
      ∀ r ∈ orderLayout L O,
        r.position = -1 ∨
          ∃ o ∈ O, uniqueId o.page_idx o.bbox = uniqueId r.page_idx r.bbox ∧
            r.position = o.position := by
  intro L O
  constructor
  · have hp : (orderLayout L O).Perm (attachPositions L O) := List.perm_insertionSort _ _
    apply (hp.map stripPos).trans
    have hmm : (attachPositions L O).map stripPos = L.map stripLayout := by
      unfold attachPositions
      rw [List.map_map]
      rfl
    rw [hmm]
  · intro r hr
    rcases mem_attachPositions (mem_of_mem_orderLayout hr) with ⟨l, hl, he⟩
    subst he
    dsimp only
    cases hd : dictGet (positionMap O) (uniqueId l.page_idx l.bbox) with
    | none =>
      left
      rfl
    | some v =>
      right
      have hm := dictGet_mem hd
      simp only [positionMap] at hm
      rcases List.mem_map.mp hm with ⟨o, ho, hoe⟩
      have h1 : uniqueId o.page_idx o.bbox = uniqueId l.page_idx l.bbox :=
        congrArg Prod.fst hoe
      have h2 : o.position = v := congrArg Prod.snd hoe
      exact ⟨o, ho, h1, h2.symm⟩

/-- C7, witness at a concrete instance: three blocks, order predictions for
two of them; the unmatched block's row carries `-1`. -/
theorem C7_order_completeness_witness :
    ((orderLayout exC7L exC7O).map stripPos).Perm (exC7L.map stripLayout) ∧
    ((PosRow.mk 0 1 "Text" (Bbox.mk 0 1 0 0) (-1)).position = -1 ∨
      ∃ o ∈ exC7O,
        uniqueId o.page_idx o.bbox
          = uniqueId (PosRow.mk 0 1 "Text" (Bbox.mk 0 1 0 0) (-1)).page_idx
              (PosRow.mk 0 1 "Text" (Bbox.mk 0 1 0 0) (-1)).bbox ∧
        (PosRow.mk 0 1 "Text" (Bbox.mk 0 1 0 0) (-1)).position = o.position) :=
  ⟨(C7_order_completeness exC7L exC7O).1,
   (C7_order_completeness exC7L exC7O).2 _ (by decide)⟩

/-! ### C3 : block-geometry frame condition -/

theorem getSuryaDf_ok {model : OrderModel} {images : List Img}
    {preds : List LayoutPagePred} {ppi : Nat} {s : List SuryaRow}
    (h : getSuryaDf model images preds ppi = .ok s) :
    ∃ op : List OrderPagePred,
      s = (orderLayout (parseLayoutRes preds) (parseOrderRes op)).map
            (fun r => SuryaRow.mk r.page_idx r.block_idx r.label r.bbox r.position ppi) := by
  unfold getSuryaDf at h
  cases hrs : runSurya model images preds with
  | error e =>
    rw [hrs] at h
    simp at h
  | ok rows =>
    rw [hrs] at h
    simp at h
    simp only [runSurya] at hrs
    cases hm : ((getBboxes preds).map List.length).max? with
    | none =>
      rw [hm] at hrs
      simp at hrs
    | some m =>
      rw [hm] at hrs
      simp at hrs
      refine ⟨if m < 255 then doOrder model images (getBboxes preds)
              else doOrderByPage model images (getBboxes preds), ?_⟩
      rw [← h, ← hrs]

theorem runOcr_ok {engine : OcrEngine} {images : List Img} {layoutTable : List SuryaRow}
    {imagePpi layoutPpi : Nat} {buffer : Int} {fs0 : Bool}
    {tbl : List SuryaRow} {ocr : List OcrRow} {fs : Bool}
    (h : runOcr engine images layoutTable imagePpi layoutPpi buffer fs0
      = (.ok (tbl, ocr), fs)) :
    tbl = (cropImages images layoutTable imagePpi layoutPpi buffer).1 := by
  simp only [runOcr] at h
  cases htm : tesseractOcrMulti engine
      ((cropImages images layoutTable imagePpi layoutPpi buffer).2.map (fun r => r.image))
      fs0 with
  | mk res fsx =>
    rw [htm] at h
    cases res with
    | error e => simp at h
    | ok ocrRes =>
      by_cases hl :
        ocrRes.length = (cropImages images layoutTable imagePpi layoutPpi buffer).2.length
      · simp [hl] at h
        exact h.1.1.symm
      · simp [hl] at h

theorem mem_selectFinal_merge {layoutDf : List SuryaRow} {ocrDf : List OcrRow}
    {row : FinalRow} (h : row ∈ selectFinal (mergeLayoutOcr layoutDf ocrDf)) :
    ∃ sr ∈ layoutDf, row.page_index = sr.page_idx ∧ row.label = sr.label ∧
      row.bbox = sr.bbox := by
  rcases List.mem_map.mp h with ⟨p, hp, he⟩
  rcases List.mem_map.mp hp with ⟨sr, hsr, hpe⟩
  subst hpe
  subst he
  exact ⟨sr, hsr, rfl, rfl, rfl⟩

theorem mem_cropScaled {images : List Img} {lt : List SuryaRow} {ippi lppi : Nat}
    {buffer : Int} {sr : SuryaRow} (h : sr ∈ (cropImages images lt ippi lppi buffer).1) :
    ∃ r0 ∈ lt,
      sr = { r0 with bbox := scaleBbox r0.bbox ((ippi : ℚ) / (lppi : ℚ)) buffer } := by
  rcases List.mem_map.mp h with ⟨r0, h0, he⟩
  exact ⟨r0, h0, he.symm⟩

theorem orderLayout_row_src {L : List LayoutRow} {O : List OrderRow} {pr : PosRow}
    (h : pr ∈ orderLayout L O) :
    ∃ l ∈ L, pr.page_idx = l.page_idx ∧ pr.label = l.label ∧ pr.bbox = l.bbox := by
  rcases mem_attachPositions (mem_of_mem_orderLayout h) with ⟨l, hl, he⟩
  subst he
  exact ⟨l, hl, rfl, rfl, rfl⟩

/-- C3, counterexample: running the pipeline with `layout_ppi = 72` and
`ocr_ppi = 144` on a one-block page with detector bbox `(10, 10, 20, 20)`,
the final merged table's row carries bbox `(16, 16, 44, 44)` — the
cropping stage's in-place rescale (scale 2, buffer 2) propagates into the
merge, so the merged bbox is in OCR-ppi space, not the detector's
layout-ppi bbox. -/
theorem scaleBbox_at_144_72 :
    scaleBbox (Bbox.mk 10 10 20 20) (((144 : Nat) : ℚ) / ((72 : Nat) : ℚ)) 2
      = Bbox.mk 16 16 44 44 := by
  have hs : ((144 : Nat) : ℚ) / ((72 : Nat) : ℚ) = 2 := by norm_num
  unfold scaleBbox
  rw [hs]
  have h1 : (((10 : Int) : ℚ) - ((2 : Int) : ℚ)) * 2 = ((16 : Int) : ℚ) := by norm_num
  have h2 : (((20 : Int) : ℚ) + ((2 : Int) : ℚ)) * 2 = ((44 : Int) : ℚ) := by norm_num
  show Bbox.mk ⌊(((10 : Int) : ℚ) - ((2 : Int) : ℚ)) * 2⌋ ⌊(((10 : Int) : ℚ) - ((2 : Int) : ℚ)) * 2⌋
      ⌈(((20 : Int) : ℚ) + ((2 : Int) : ℚ)) * 2⌉ ⌈(((20 : Int) : ℚ) + ((2 : Int) : ℚ)) * 2⌉
    = Bbox.mk 16 16 44 44
  rw [h1, h2, Int.floor_intCast, Int.ceil_intCast]

theorem C3_counterexample :
    (exC3run 72 144).1 =
      .ok [FinalRow.mk 0 0
        (scaleBbox (Bbox.mk 10 10 20 20) (((144 : Nat) : ℚ) / ((72 : Nat) : ℚ)) 2)
        "Text" (some "hello") 72] ∧
    scaleBbox (Bbox.mk 10 10 20 20) (((144 : Nat) : ℚ) / ((72 : Nat) : ℚ)) 2
      = Bbox.mk 16 16 44 44 ∧
    Bbox.mk 16 16 44 44 ≠ Bbox.mk 10 10 20 20 := by
  refine ⟨?_, scaleBbox_at_144_72, by decide⟩
  rfl

/-- C3, amended: every row of the final merged table carries
`scale_bbox(detector bbox, ocr_ppi / layout_ppi, buffer)` — the bbox as
overwritten in place by the cropping stage — rather than the detector bbox
itself; only when `ocr_ppi = layout_ppi` (buffer 0, scale 1) does the
merged bbox coincide with the detector's. `page_index` and `label` are
carried unchanged. -/
theorem C3_bbox_amended (model : OrderModel) (engine : OcrEngine)
    (limgs oimgs : List Img) (preds : List LayoutPagePred) (lppi oppi : Nat)
    (fs0 : Bool) (merged : List FinalRow) (fs : Bool)
    (h : parsePdf model engine limgs oimgs preds lppi oppi fs0 = (.ok merged, fs)) :
    ∀ row ∈ merged, ∃ lrow ∈ parseLayoutRes preds,
      row.page_index = lrow.page_idx ∧ row.label = lrow.label ∧
      row.bbox = scaleBbox lrow.bbox ((oppi : ℚ) / (lppi : ℚ)) (bufferSize lppi oppi) ∧
      (lppi = oppi → 0 < oppi → row.bbox = lrow.bbox) := by
  intro row hrow
  unfold parsePdf at h
  cases hs : getSuryaDf model limgs preds lppi with
  | error e =>
    rw [hs] at h
    simp at h
  | ok suryaDf =>
    rw [hs] at h
    simp only [] at h
    cases hro : runOcr engine oimgs suryaDf oppi lppi (bufferSize lppi oppi) fs0 with
    | mk res fsx =>
      rw [hro] at h
      cases res with
      | error e => simp at h
      | ok r =>
        simp at h
        obtain ⟨tbl, ocr⟩ := r
        have htbl : tbl = (cropImages oimgs suryaDf oppi lppi (bufferSize lppi oppi)).1 :=
          runOcr_ok hro
        rw [← h.1] at hrow
        rcases mem_selectFinal_merge hrow with ⟨sr, hsr, hpI, hlbl, hbb⟩
        have hsr' : sr ∈ tbl := hsr
        rw [htbl] at hsr'
        rcases mem_cropScaled hsr' with ⟨r0, hr0, hre⟩
        rcases getSuryaDf_ok hs with ⟨op, hsd⟩
        rw [hsd] at hr0
        rcases List.mem_map.mp hr0 with ⟨pr, hpr, hpre⟩
        rcases orderLayout_row_src hpr with ⟨l, hl, hpg, hlb, hbx⟩
        subst hre
        subst hpre
        refine ⟨l, hl, ?_, ?_, ?_, ?_⟩
        · rw [hpI]
          exact hpg
        · rw [hlbl]
          exact hlb
        · rw [hbb]
          show scaleBbox pr.bbox ((oppi : ℚ) / (lppi : ℚ)) (bufferSize lppi oppi)
            = scaleBbox l.bbox ((oppi : ℚ) / (lppi : ℚ)) (bufferSize lppi oppi)
          rw [hbx]
        · intro heq hpos
          rw [hbb]
          show scaleBbox pr.bbox ((oppi : ℚ) / (lppi : ℚ)) (bufferSize lppi oppi) = l.bbox
          rw [hbx, heq, ppi_div_self oppi hpos]
          rw [show bufferSize oppi oppi = 0 from if_pos rfl]
          exact scaleBbox_one_zero l.bbox

/-- C3 (amended), witness: at equal resolutions 72/72 the merged row's bbox
is exactly the detector bbox. -/
theorem C3_bbox_amended_witness :
    ∃ lrow ∈ parseLayoutRes exC3layout,
      (FinalRow.mk 0 0
          (scaleBbox (Bbox.mk 10 10 20 20) (((72 : Nat) : ℚ) / ((72 : Nat) : ℚ))
            (bufferSize 72 72)) "Text" (some "hello") 72).page_index = lrow.page_idx ∧
      (FinalRow.mk 0 0
          (scaleBbox (Bbox.mk 10 10 20 20) (((72 : Nat) : ℚ) / ((72 : Nat) : ℚ))
            (bufferSize 72 72)) "Text" (some "hello") 72).label = lrow.label ∧
      (FinalRow.mk 0 0
          (scaleBbox (Bbox.mk 10 10 20 20) (((72 : Nat) : ℚ) / ((72 : Nat) : ℚ))
            (bufferSize 72 72)) "Text" (some "hello") 72).bbox
        = scaleBbox lrow.bbox (((72 : Nat) : ℚ) / ((72 : Nat) : ℚ)) (bufferSize 72 72) ∧
      (72 = 72 → 0 < 72 →
        (FinalRow.mk 0 0
            (scaleBbox (Bbox.mk 10 10 20 20) (((72 : Nat) : ℚ) / ((72 : Nat) : ℚ))
              (bufferSize 72 72)) "Text" (some "hello") 72).bbox = lrow.bbox) :=
  C3_bbox_amended rankModel (engSome "hello") [0] [0] exC3layout 72 72 false
    [FinalRow.mk 0 0
      (scaleBbox (Bbox.mk 10 10 20 20) (((72 : Nat) : ℚ) / ((72 : Nat) : ℚ))
        (bufferSize 72 72)) "Text" (some "hello") 72] false rfl
    _ (List.mem_singleton.mpr rfl)

/-! ### C4 : OCR alignment -/

/-- C4: when the adapter's segment list has exactly one segment per cropped
image, `run_ocr` succeeds and attaches segment `i` to the row of image `i`
(keyed by that crop's `(page_idx, block_idx)`); when the counts differ, it
raises instead of returning a misaligned or shorter table. -/
theorem C4_ocr_alignment (engine : OcrEngine) (images : List Img)
    (layoutTable : List SuryaRow) (imagePpi layoutPpi : Nat) (buffer : Int)
    (fs0 : Bool) (segs : List String) (fs : Bool)
    (hseg : tesseractOcrMulti engine
        ((cropImages images layoutTable imagePpi layoutPpi buffer).2.map (fun r => r.image))
        fs0 = (.ok segs, fs)) :
    (segs.length = (cropImages images layoutTable imagePpi layoutPpi buffer).2.length →
      (runOcr engine images layoutTable imagePpi layoutPpi buffer fs0).1 =
        .ok ((cropImages images layoutTable imagePpi layoutPpi buffer).1,
          ((cropImages images layoutTable imagePpi layoutPpi buffer).2.zip segs).map
            (fun p => OcrRow.mk p.1.page_idx p.1.block_idx p.2)) ∧
      ∀ i : Nat,
        (((cropImages images layoutTable imagePpi layoutPpi buffer).2.zip segs).map
            (fun p => OcrRow.mk p.1.page_idx p.1.block_idx p.2))[i]? =
          ((cropImages images layoutTable imagePpi layoutPpi buffer).2[i]?).bind
            (fun c => (segs[i]?).map (fun s => OcrRow.mk c.page_idx c.block_idx s))) ∧
    (segs.length ≠ (cropImages images layoutTable imagePpi layoutPpi buffer).2.length →
      (runOcr engine images layoutTable imagePpi layoutPpi buffer fs0).1 =
        .error .lengthMismatch) := by
  constructor
  · intro hlen
    constructor
    · simp only [runOcr, hseg]
      rw [if_pos hlen]
    · intro i
      cases hc : (cropImages images layoutTable imagePpi layoutPpi buffer).2[i]? with
      | none =>
        have hib : (cropImages images layoutTable imagePpi layoutPpi buffer).2.length ≤ i :=
          List.getElem?_eq_none_iff.mp hc
        have hz : ((((cropImages images layoutTable imagePpi layoutPpi buffer).2.zip
            segs).map (fun p => OcrRow.mk p.1.page_idx p.1.block_idx p.2)))[i]? = none := by
          rw [List.getElem?_eq_none_iff, List.length_map, List.length_zip]
          omega
        rw [hz]
        rfl
      | some c =>
        have hib : i < (cropImages images layoutTable imagePpi layoutPpi buffer).2.length :=
          (List.getElem?_eq_some.mp hc).1
        cases hsg : segs[i]? with
        | none =>
          exfalso
          have : segs.length ≤ i := List.getElem?_eq_none_iff.mp hsg
          omega
        | some sg =>
          have hz : ((cropImages images layoutTable imagePpi layoutPpi buffer).2.zip
              segs)[i]? = some (c, sg) :=
            List.getElem?_zip_eq_some.mpr ⟨hc, hsg⟩
          rw [List.getElem?_map, hz]
          rfl
  · intro hlen
    simp only [runOcr, hseg]
    rw [if_neg hlen]

/-- C4, witness: one crop, engine output `"hello"` (one segment), the row
receives the segment; and a two-segment output for one crop errors. -/
theorem C4_ocr_alignment_witness :
    (runOcr (engSome "hello") [0] exC4table 72 72 0 false).1 =
      .ok ((cropImages [0] exC4table 72 72 0).1,
        ((cropImages [0] exC4table 72 72 0).2.zip ["hello"]).map
          (fun p => OcrRow.mk p.1.page_idx p.1.block_idx p.2)) ∧
    (runOcr (engSome ("a" ++ "\x0c" ++ "b")) [0] exC4table 72 72 0 false).1 =
      .error .lengthMismatch :=
  ⟨((C4_ocr_alignment (engSome "hello") [0] exC4table 72 72 0 false ["hello"] false
      rfl).1 rfl).1,
   (C4_ocr_alignment (engSome ("a" ++ "\x0c" ++ "b")) [0] exC4table 72 72 0 false
      ["a", "b"] false (by rfl)).2 (by decide)⟩

/-! ### C5 : temporary-artifact cleanup -/

/-- C5, counterexample: on the `None`-output path the invocation returns a
normal (non-error) result with the temp file still present, and on the
subprocess-failure path the error propagates with the file still present —
the temp file is not removed on every exit path. -/
theorem C5_counterexample :
    tesseractOcrMulti engNone [exCrop] false = (.ok [""], true) ∧
    tesseractOcrMulti engFail [exCrop] false = (.error .subprocessError, true) :=
  ⟨rfl, rfl⟩

/-- C5, amended: the temp file is removed only on the path where the
subprocess runs and its captured output is not `None`; on the
`None`-output early return and on a subprocess failure the file is written
and left behind, and on an empty image list the invocation fails before
any file is written (the file-system state is untouched). -/
theorem C5_cleanup_amended (engine : OcrEngine) (imgs : List Cropped) (fs0 : Bool) :
    (imgs = [] → tesseractOcrMulti engine imgs fs0 = (.error .indexError, fs0)) ∧
    (imgs ≠ [] →
      (∀ s, engine imgs = .ok (some s) →
        tesseractOcrMulti engine imgs fs0 = (.ok (pySplitFF s), false)) ∧
      (engine imgs = .ok none →
        tesseractOcrMulti engine imgs fs0 = (.ok (imgs.map (fun _ => "")), true)) ∧
      (∀ e, engine imgs = .error e →
        tesseractOcrMulti engine imgs fs0 = (.error .subprocessError, true))) := by
  constructor
  · intro he
    subst he
    rfl
  · intro hne
    cases imgs with
    | nil => exact absurd rfl hne
    | cons c rest =>
      refine ⟨?_, ?_, ?_⟩
      · intro s hs
        simp [tesseractOcrMulti, hs]
      · intro hs
        simp [tesseractOcrMulti, hs]
      · intro e hs
        simp [tesseractOcrMulti, hs]

/-- C5 (amended), witness: with a non-`None` engine the file is removed;
the hypotheses are discharged at a concrete one-image invocation. -/
theorem C5_cleanup_amended_witness :
    tesseractOcrMulti (engSome "t") [exCrop] false = (.ok ["t"], false) :=
  ((C5_cleanup_amended (engSome "t") [exCrop] false).2 (by decide)).1 "t" rfl

/-! ### C8 : rescale round trip -/

/-- C8: at equal resolutions the pipeline picks buffer 0 and scale 1, and
`scale_bbox` is then the identity on integer bboxes; consequently the
cropping stage's in-place rescale leaves the whole layout table
unchanged. -/
theorem C8_rescale_roundtrip (ppi : Nat) (b : Bbox) (h : 0 < ppi) :
    bufferSize ppi ppi = 0 ∧
    scaleBbox b ((ppi : ℚ) / (ppi : ℚ)) (bufferSize ppi ppi) = b ∧
    ∀ (images : List Img) (layoutTable : List SuryaRow),
      (cropImages images layoutTable ppi ppi (bufferSize ppi ppi)).1 = layoutTable := by
  have hb : bufferSize ppi ppi = 0 := if_pos rfl
  have hs := ppi_div_self ppi h
  refine ⟨hb, ?_, ?_⟩
  · rw [hb, hs]
    exact scaleBbox_one_zero b
  · intro images layoutTable
    show layoutTable.map
        (fun r => { r with
          bbox := scaleBbox r.bbox ((ppi : ℚ) / (ppi : ℚ)) (bufferSize ppi ppi) })
      = layoutTable
    have hid : ∀ r : SuryaRow,
        { r with bbox := scaleBbox r.bbox ((ppi : ℚ) / (ppi : ℚ)) (bufferSize ppi ppi) }
          = r := by
      intro r
      rw [hb, hs, scaleBbox_one_zero]
    rw [List.map_congr_left (fun r _ => hid r), List.map_id']

/-- C8, witness at ppi 72 and bbox `(1, 2, 3, 4)`. -/
theorem C8_rescale_roundtrip_witness :
    0 < 72 ∧ bufferSize 72 72 = 0 ∧
    scaleBbox (Bbox.mk 1 2 3 4) ((72 : ℚ) / (72 : ℚ)) (bufferSize 72 72) = Bbox.mk 1 2 3 4 ∧
    (cropImages [0] exC4table 72 72 (bufferSize 72 72)).1 = exC4table :=
  ⟨by decide, (C8_rescale_roundtrip 72 (Bbox.mk 1 2 3 4) (by decide)).1,
   (C8_rescale_roundtrip 72 (Bbox.mk 1 2 3 4) (by decide)).2.1,
   (C8_rescale_roundtrip 72 (Bbox.mk 1 2 3 4) (by decide)).2.2 [0] exC4table⟩

/-! ### C9 : rescale monotonicity -/

/-- C9: when `ppi_b > ppi_a > 0` the pipeline picks buffer 2, and the
rescaled box strictly contains the naively scaled box: floor of the
buffered min corner lies strictly below `x * scale` and `y * scale`, ceil
of the buffered max corner strictly above `w * scale` and `h * scale`. -/
theorem C9_rescale_monotonic (a b : Nat) (x y w h : Int)
    (hab : a < b) (ha : 0 < a) (hxw : x ≤ w) (hyh : y ≤ h) :
    bufferSize a b = 2 ∧
    (((scaleBbox (Bbox.mk x y w h) ((b : ℚ) / (a : ℚ)) 2).x : ℚ)
        < (x : ℚ) * ((b : ℚ) / (a : ℚ)) ∧
      ((scaleBbox (Bbox.mk x y w h) ((b : ℚ) / (a : ℚ)) 2).y : ℚ)
        < (y : ℚ) * ((b : ℚ) / (a : ℚ)) ∧
      (w : ℚ) * ((b : ℚ) / (a : ℚ))
        < ((scaleBbox (Bbox.mk x y w h) ((b : ℚ) / (a : ℚ)) 2).w : ℚ) ∧
      (h : ℚ) * ((b : ℚ) / (a : ℚ))
        < ((scaleBbox (Bbox.mk x y w h) ((b : ℚ) / (a : ℚ)) 2).h : ℚ)) := by
  have hbuf : bufferSize a b = 2 := if_neg (by omega)
  have ha' : (0 : ℚ) < (a : ℚ) := by exact_mod_cast ha
  have hs1 : 1 < (b : ℚ) / (a : ℚ) := by
    rw [one_lt_div ha']
    exact_mod_cast hab
  have hs0 : 0 < (b : ℚ) / (a : ℚ) := lt_trans one_pos hs1
  refine ⟨hbuf, ?_, ?_, ?_, ?_⟩
  · calc ((⌊((x : ℚ) - ((2 : Int) : ℚ)) * ((b : ℚ) / (a : ℚ))⌋ : Int) : ℚ)
        ≤ ((x : ℚ) - ((2 : Int) : ℚ)) * ((b : ℚ) / (a : ℚ)) := Int.floor_le _
    _ < (x : ℚ) * ((b : ℚ) / (a : ℚ)) := by nlinarith
  · calc ((⌊((y : ℚ) - ((2 : Int) : ℚ)) * ((b : ℚ) / (a : ℚ))⌋ : Int) : ℚ)
        ≤ ((y : ℚ) - ((2 : Int) : ℚ)) * ((b : ℚ) / (a : ℚ)) := Int.floor_le _
    _ < (y : ℚ) * ((b : ℚ) / (a : ℚ)) := by nlinarith
  · calc (w : ℚ) * ((b : ℚ) / (a : ℚ))
        < ((w : ℚ) + ((2 : Int) : ℚ)) * ((b : ℚ) / (a : ℚ)) := by nlinarith
    _ ≤ ((⌈((w : ℚ) + ((2 : Int) : ℚ)) * ((b : ℚ) / (a : ℚ))⌉ : Int) : ℚ) := Int.le_ceil _
  · calc (h : ℚ) * ((b : ℚ) / (a : ℚ))
        < ((h : ℚ) + ((2 : Int) : ℚ)) * ((b : ℚ) / (a : ℚ)) := by nlinarith
    _ ≤ ((⌈((h : ℚ) + ((2 : Int) : ℚ)) * ((b : ℚ) / (a : ℚ))⌉ : Int) : ℚ) := Int.le_ceil _

/-- C9, witness at resolutions 72 → 144 and bbox `(0, 0, 10, 10)`. -/
theorem C9_rescale_monotonic_witness :
    bufferSize 72 144 = 2 ∧
    (((scaleBbox (Bbox.mk 0 0 10 10) ((144 : ℚ) / (72 : ℚ)) 2).x : ℚ)
        < ((0 : Int) : ℚ) * ((144 : ℚ) / (72 : ℚ)) ∧
      ((scaleBbox (Bbox.mk 0 0 10 10) ((144 : ℚ) / (72 : ℚ)) 2).y : ℚ)
        < ((0 : Int) : ℚ) * ((144 : ℚ) / (72 : ℚ)) ∧
      ((10 : Int) : ℚ) * ((144 : ℚ) / (72 : ℚ))
        < ((scaleBbox (Bbox.mk 0 0 10 10) ((144 : ℚ) / (72 : ℚ)) 2).w : ℚ) ∧
      ((10 : Int) : ℚ) * ((144 : ℚ) / (72 : ℚ))
        < ((scaleBbox (Bbox.mk 0 0 10 10) ((144 : ℚ) / (72 : ℚ)) 2).h : ℚ)) :=
  C9_rescale_monotonic 72 144 0 0 10 10 (by decide) (by decide) (by decide) (by decide)

/-! ### C10 : empty-eligible-crop edge case -/

/-- C10: if cropping yields no sub-images the OCR invocation does not
return an empty table; it raises, because the multi-frame serialization
indexes the first image of the (empty) batch. -/
theorem C10_empty_crop_fails (engine : OcrEngine) (images : List Img)
    (layoutTable : List SuryaRow) (imagePpi layoutPpi : Nat) (buffer : Int) (fs0 : Bool)
    (h : (cropImages images layoutTable imagePpi layoutPpi buffer).2 = []) :
    (runOcr engine images layoutTable imagePpi layoutPpi buffer fs0).1
      = .error .indexError := by
  simp only [runOcr, h]
  rfl

/-- C10, witness: a document with no pages crops to nothing and the
invocation errors. -/
theorem C10_empty_crop_fails_witness :
    (cropImages [] [] 72 72 0).2 = [] ∧
    (runOcr engNone [] [] 72 72 0 false).1 = .error .indexError :=
  ⟨rfl, C10_empty_crop_fails engNone [] [] 72 72 0 false rfl⟩

end EMRisk
